import Mathlib

/-!
Shallow embedding of `server.py` (marathon MCP server) and verification of
its natural-language specification.

The embedding models:
* Python string operations used by the code (`in` substring test, `.lower()`,
  string comparison used by `list.sort`);
* `datetime.strptime(s, '%Y-%m-%d')` as a parser to proleptic-Gregorian day
  ordinals (CPython compiles `%Y` to exactly four digits, `%m` to
  `1[0-2]|0[1-9]|[1-9]`, and `%d` to `3[01]|[12]\d|0[1-9]|[1-9]| [1-9]` —
  so one or two digit months/days with a space-padded day allowed — with
  literal `-` separators and no trailing text, and requires a calendar-valid
  date with year at least 1);
* the record dictionaries produced by `fetch_detail` as a structure
  (`fetch_detail` always stores every key, defaulting missing payload fields
  to the empty string / empty list);
* the module-level `_cache` dict and the cache handling shared by the four
  query tools;
* the query/filter/sort/annotation logic of the four tools, including the
  aliasing of the cached list in `search_marathons` (`filtered = results`
  followed by in-place `filtered.sort(...)`);
* the crawl orchestrator's href de-duplication and per-item failure
  filtering, with the network fetch abstracted as a per-URL outcome function
  (`asyncio.gather` with `return_exceptions=True` returns outcomes in input
  order; a fetch outcome is a record, `None`, or an exception object).

Python's `list.sort` is a stable ascending sort; it is modelled by
`List.insertionSort` with the non-strict key order, which is also stable
(earlier elements are inserted in front of later equal-key elements).
-/

namespace MarathonServer

/-! ### Python string primitives -/

/-- Model of matching a pattern at the head of a character list. -/
def headMatch : List Char → List Char → Bool
  | [], _ => true
  | _ :: _, [] => false
  | p :: ps, c :: cs => p == c && headMatch ps cs

/-- Model of searching a pattern anywhere in a character list. -/
def subSearch (pat : List Char) : List Char → Bool
  | [] => pat.isEmpty
  | c :: cs => headMatch pat (c :: cs) || subSearch pat cs

/-- Model of Python's substring test `pat in s` (exact code-point match;
`'' in s` is `True`). -/
def pyIn (pat s : String) : Bool := subSearch pat.data s.data

/-- Model of Python's `str.lower()` on the character data (ASCII letters are
lowered; the Korean text appearing in this program is unaffected by either
implementation). -/
def lowerStr (s : String) : String := ⟨s.data.map Char.toLower⟩

/-- Lexicographic code-point comparison of character lists, as used by
Python's string `<`/`<=` during `list.sort`. -/
def charsLe : List Char → List Char → Bool
  | [], _ => true
  | _ :: _, [] => false
  | a :: as, b :: bs =>
    if a.val < b.val then true
    else if b.val < a.val then false
    else charsLe as bs

/-- Model of Python's string less-or-equal used as the sort comparison. -/
def strLeB (s t : String) : Bool := charsLe s.data t.data

/-- Boolean membership of a string in a list, as Python's `x in list` /
`x not in list`. -/
def memB (x : String) : List String → Bool
  | [] => false
  | y :: ys => x == y || memB x ys

/-! ### Dates: `datetime.strptime(s, '%Y-%m-%d')` and day ordinals -/

/-- CPython's `%Y` field: the regex `\d\d\d\d` — exactly four decimal
digits. -/
def readYear : List Char → Option (Nat × List Char)
  | a :: b :: c :: d :: rest =>
    if a.isDigit && b.isDigit && c.isDigit && d.isDigit then
      some ((((a.toNat - 48) * 10 + (b.toNat - 48)) * 10 + (c.toNat - 48)) * 10 +
        (d.toNat - 48), rest)
    else none
  | _ => none

/-- CPython's `%m` field: the regex `1[0-2]|0[1-9]|[1-9]`, first alternative
wins.  Backtracking from a two-digit match to the `[1-9]` fallback can never
succeed, because the following literal `-` would then have to match the
second digit — so a deterministic first-match reader is extensionally equal
to the regex engine here. -/
def readMonth : List Char → Option (Nat × List Char)
  | '1' :: c :: rest =>
    if c = '0' ∨ c = '1' ∨ c = '2' then some (10 + (c.toNat - 48), rest)
    else some (1, c :: rest)
  | '0' :: c :: rest =>
    if '1' ≤ c ∧ c ≤ '9' then some (c.toNat - 48, rest) else none
  | c :: rest =>
    if '1' ≤ c ∧ c ≤ '9' then some (c.toNat - 48, rest) else none
  | [] => none

/-- CPython's `%d` field: the regex `3[01]|[12]\d|0[1-9]|[1-9]| [1-9]` —
one or two digits, or a space-padded single digit, first alternative wins
(the day is the last format token, so the regex never backtracks into it;
any leftover characters raise "unconverted data remains" instead). -/
def readDay : List Char → Option (Nat × List Char)
  | '3' :: c :: rest =>
    if c = '0' ∨ c = '1' then some (30 + (c.toNat - 48), rest) else some (3, c :: rest)
  | '1' :: c :: rest =>
    if c.isDigit then some (10 + (c.toNat - 48), rest) else some (1, c :: rest)
  | '2' :: c :: rest =>
    if c.isDigit then some (20 + (c.toNat - 48), rest) else some (2, c :: rest)
  | '0' :: c :: rest =>
    if '1' ≤ c ∧ c ≤ '9' then some (c.toNat - 48, rest) else none
  | ' ' :: c :: rest =>
    if '1' ≤ c ∧ c ≤ '9' then some (c.toNat - 48, rest) else none
  | c :: rest =>
    if '1' ≤ c ∧ c ≤ '9' then some (c.toNat - 48, rest) else none
  | [] => none

/-- Gregorian leap-year test. -/
def isLeapYear (y : Nat) : Bool := (y % 4 == 0 && !(y % 100 == 0)) || y % 400 == 0

/-- Length of month `m` (1-12). -/
def monthLen (leap : Bool) (m : Nat) : Nat :=
  match m with
  | 1 => 31
  | 2 => if leap then 29 else 28
  | 3 => 31
  | 4 => 30
  | 5 => 31
  | 6 => 30
  | 7 => 31
  | 8 => 31
  | 9 => 30
  | 10 => 31
  | 11 => 30
  | 12 => 31
  | _ => 0

/-- Days in the years `1 .. y-1` of the proleptic Gregorian calendar. -/
def daysBeforeYear (y : Nat) : Nat :=
  365 * (y - 1) + (y - 1) / 4 - (y - 1) / 100 + (y - 1) / 400

/-- Days in the months `1 .. m-1` of a year with the given leap status. -/
def daysBeforeMonth (leap : Bool) (m : Nat) : Nat :=
  (List.range (m - 1)).foldl (fun a i => a + monthLen leap (i + 1)) 0

/-- Proleptic Gregorian day ordinal (0001-01-01 is day 1), as Python's
`date.toordinal()`; `datetime` differences in whole days are differences of
these ordinals for midnight-truncated values. -/
def toOrdinal (y m d : Nat) : Nat := daysBeforeYear y + daysBeforeMonth (isLeapYear y) m + d

/-- Model of `datetime.strptime(s, '%Y-%m-%d')`, reduced to the day ordinal
of the parsed date; `none` models the `ValueError` the code catches.  The
format compiles to the regex `\d\d\d\d` `-` `1[0-2]|0[1-9]|[1-9]` `-`
`3[01]|[12]\d|0[1-9]|[1-9]| [1-9]`; leftover input raises ("unconverted
data remains"), and the `datetime` constructor then requires a
calendar-valid date with year at least `MINYEAR = 1` (at most 9999 is
automatic from the four-digit year; the month reader only produces 1-12 and
the day reader only 1-31, so only the month-length bound remains to
check). -/
def parseDate (s : String) : Option Nat :=
  match readYear s.data with
  | none => none
  | some (y, r1) =>
    match r1 with
    | '-' :: r2 =>
      match readMonth r2 with
      | none => none
      | some (mo, r3) =>
        match r3 with
        | '-' :: r4 =>
          match readDay r4 with
          | none => none
          | some (d, r5) =>
            if r5.isEmpty ∧ 1 ≤ y ∧ d ≤ monthLen (isLeapYear y) mo
            then some (toOrdinal y mo d)
            else none
        | _ => none
    | _ => none

/-! ### The record model (`fetch_detail` result dictionaries) -/

/-- One record dictionary as produced by `fetch_detail`. Every key is always
present (the Python code stores all thirteen keys on every success path);
field names translate the Korean keys:
`name` = 마라톤명, `tracks` = 트랙, `region` = 지역, `place` = 장소,
`date` = 날짜, `gatherTime` = 집결시간, `appStart`/`appEnd` =
접수기간.시작일/종료일, `email`/`phone` = 문의처, `host` = 주최,
`homepage` = 홈페이지, `intro` = 소개, `sourceUrl` = 상세URL. -/
structure Marathon where
  name : String
  tracks : List String
  region : String
  place : String
  date : String
  gatherTime : String
  appStart : String
  appEnd : String
  email : String
  phone : String
  host : String
  homepage : String
  intro : String
  sourceUrl : String
deriving DecidableEq, Repr

/-- The `raceDetail` payload sub-object of a detail page: each named field is
present or absent. -/
structure RaceDetail where
  raceName : Option String
  raceTypeList : Option String
  region : Option String
  place : Option String
  raceDate : Option String
  raceStart : Option String
  applicationStartDate : Option String
  applicationEndDate : Option String
  email : Option String
  phone : Option String
  host : Option String
  homepageUrl : Option String
  intro : Option String
deriving DecidableEq, Repr

/-- The field-by-field mapping in `fetch_detail`'s success path:
`race_detail.get(k, '')` defaults every absent field to the empty string, and
`raceTypeList` is split on commas only when present and non-empty. -/
def fetchExtract (rd : RaceDetail) (detail_url : String) : Marathon :=
  { name := rd.raceName.getD ""
    tracks :=
      match rd.raceTypeList with
      | some s => if s == "" then [] else s.splitOn ","
      | none => []
    region := rd.region.getD ""
    place := rd.place.getD ""
    date := rd.raceDate.getD ""
    gatherTime := rd.raceStart.getD ""
    appStart := rd.applicationStartDate.getD ""
    appEnd := rd.applicationEndDate.getD ""
    email := rd.email.getD ""
    phone := rd.phone.getD ""
    host := rd.host.getD ""
    homepage := rd.homepageUrl.getD ""
    intro := rd.intro.getD ""
    sourceUrl := detail_url }

/-- Model of `is_accepting_applications(marathon)`: `today` is the day
ordinal of `datetime.now()` truncated to the start of day. The function is
total: an empty end date or a parse failure (the caught `ValueError`)
degrades to `false`. -/
def is_accepting_applications (m : Marathon) (today : Nat) : Bool :=
  if m.appEnd = "" then false
  else
    match parseDate m.appEnd with
    | none => false
    | some e => decide (today ≤ e)

/-! ### The TTL cache (`_cache` dict) -/

/-- The module-level `_cache` dict: `data`, `timestamp`, `ttl`.  `now` values
are seconds on some monotone clock; `datetime.now()` supplies both the cache
clock (seconds) and `today` (a day ordinal), which the code never compares
with each other, so they are separate parameters here. -/
structure Cache where
  data : Option (List Marathon)
  timestamp : Option Nat
  ttl : Nat
deriving DecidableEq, Repr

/-- The initial cache: both fields `None`, ttl 3600. -/
def initCache : Cache := { data := none, timestamp := none, ttl := 3600 }

/-- Model of `is_cache_valid()`. -/
def is_cache_valid (c : Cache) (now : Nat) : Bool :=
  match c.data, c.timestamp with
  | some _, some t => decide (now - t < c.ttl)
  | _, _ => false

/-- The cache-update pattern repeated in every query tool:
`if results: _cache['data'] = results; _cache['timestamp'] = datetime.now()`.
An empty crawl result leaves the cache untouched. -/
def cachePut (c : Cache) (now : Nat) (records : List Marathon) : Cache :=
  if records.isEmpty then c
  else { c with data := some records, timestamp := some now }

/-- Which branch supplied the query's working record list. -/
inductive DataSrc
  | fromCache
  | fromCrawl
deriving DecidableEq, Repr

/-- The cache-check-then-crawl prologue shared by all four query tools:
`if use_cache and is_cache_valid(): results = _cache['data'] else: results =
await crawl_marathons_fast(...)` followed by the conditional cache update.
The crawl itself is abstracted by the `crawl` parameter (its network inputs
are fixed constants in the code).  Returns the working list, the branch
taken, and the cache afterwards; on the cache branch the working list is the
very list object stored in the cache, and on the crawl branch a non-empty
working list is likewise the object just stored. -/
def resolveData (useC : Bool) (c : Cache) (now : Nat) (crawl : List Marathon) :
    List Marathon × DataSrc × Cache :=
  if useC && is_cache_valid c now then (c.data.getD [], DataSrc.fromCache, c)
  else (crawl, DataSrc.fromCrawl, cachePut c now crawl)

/-- Model of the `clear_cache` tool's effect on the cache: both fields are
set to `None`. -/
def clear_cache (c : Cache) : Cache := { c with data := none, timestamp := none }

/-! ### Sort orders used by `list.sort(key=...)` -/

/-- The comparison `search_marathons` and `get_marathons_by_track` sort by:
`key=lambda x: x.get('날짜', '9999-99-99')`.  For records coming from
`fetch_extract` the key `날짜` is always present, so the key is the stored
`date` string itself and the `'9999-99-99'` default is never consulted. -/
def rDate (a b : Marathon) : Prop := strLeB a.date b.date = true

instance : DecidableRel rDate := fun a b => instDecidableEqBool (strLeB a.date b.date) true

/-- Stable ascending sort by the `날짜` string, as `filtered.sort(key=...)`. -/
def sortByDate (l : List Marathon) : List Marathon := List.insertionSort rDate l

/-- A record together with the derived `접수가능여부` (isAccepting) field
added by the query tools. -/
structure MStatus where
  record : Marathon
  accepting : Bool
deriving DecidableEq, Repr

/-- Date order on status-annotated records (`get_marathons_by_track` sorts
after annotating). -/
def rDateS (a b : MStatus) : Prop := strLeB a.record.date b.record.date = true

instance : DecidableRel rDateS := fun a b => instDecidableEqBool (strLeB a.record.date b.record.date) true

/-- A record with the derived `접수가능여부` and `D-day` fields added by
`get_upcoming_marathons`. -/
structure UpView where
  record : Marathon
  accepting : Bool
  dday : Int
deriving DecidableEq, Repr

/-- The `D-day` order used by `upcoming.sort(key=lambda x: x.get('D-day',
999))`; every element carries the key, so the 999 default is never used. -/
def rDday (a b : UpView) : Prop := a.dday ≤ b.dday

instance : DecidableRel rDday := fun a b => Int.decLe a.dday b.dday

instance : IsTotal UpView rDday := ⟨fun a b => Int.le_total a.dday b.dday⟩

instance : IsTrans UpView rDday := ⟨fun _ _ _ h1 h2 => le_trans h1 h2⟩

/-! ### `search_marathons` -/

/-- The `filters` sub-document of a successful search result. -/
structure SearchFilters where
  region : Option String
  date : Option String
  only_accepting : Bool
deriving DecidableEq, Repr

/-- The JSON document `search_marathons` returns; `error = none` and
`filters = some _` in the normal document, `error = some _` and
`filters = none` in the could-not-fetch document. -/
structure SearchDoc where
  success : Bool
  total : Nat
  error : Option String
  filters : Option SearchFilters
  marathons : List MStatus
deriving DecidableEq, Repr

/-- The `{"success": False, ..., "error": ...}` document returned when the
crawl produced no data. -/
def searchErrorDoc : SearchDoc :=
  { success := false, total := 0, error := some "데이터를 가져올 수 없습니다",
    filters := none, marathons := [] }

/-- The filter/sort/annotate body of `search_marathons`, together with its
effect on the cache.  In Python, `filtered = results` aliases the working
list; each active filter rebinds `filtered` to a fresh list, and
`filtered.sort(...)` then mutates in place whatever list `filtered` points
to.  When no filter is active the sorted list is therefore the cached list
object itself, which is modelled by rewriting `c.data` in that case. -/
def searchBody (region date : String) (onlyA : Bool) (today : Nat)
    (results : List Marathon) (c : Cache) : SearchDoc × Cache :=
  let anyF : Bool := !(region == "") || !(date == "") || onlyA
  let f1 := if region == "" then results else results.filter (fun m => pyIn region m.region)
  let f2 := if date == "" then f1 else f1.filter (fun m => pyIn date m.date)
  let f3 := if onlyA then f2.filter (fun m => is_accepting_applications m today) else f2
  let sorted := sortByDate f3
  let ms := sorted.map (fun m => MStatus.mk m (is_accepting_applications m today))
  ({ success := decide (0 < ms.length), total := ms.length, error := none,
     filters := some { region := if region == "" then none else some region,
                       date := if date == "" then none else some date,
                       only_accepting := onlyA },
     marathons := ms },
   if anyF then c else { c with data := some sorted })

/-- Model of the `search_marathons` tool: cache prologue, early error return
when a fresh crawl produced nothing, otherwise the filter body. -/
def search_marathons (region date : String) (onlyA useC : Bool)
    (c : Cache) (now today : Nat) (crawl : List Marathon) : SearchDoc × Cache :=
  match resolveData useC c now crawl with
  | (results, src, c') =>
    if src == DataSrc.fromCrawl && results.isEmpty then (searchErrorDoc, c')
    else searchBody region date onlyA today results c'

/-! ### `get_marathon_by_name` -/

/-- The JSON document `get_marathon_by_name` returns. -/
structure NameDoc where
  success : Bool
  message : Option String
  total_matches : Option Nat
  marathon : Option MStatus
  other_matches : Option (List (String × String))
deriving DecidableEq, Repr

/-- The name-match body: case-insensitive substring match, first hit
returned, other hits listed as name/date pairs when there are several. -/
def nameQueryDoc (name : String) (today : Nat) (results : List Marathon) : NameDoc :=
  let matched := results.filter (fun m => pyIn (lowerStr name) (lowerStr m.name))
  match matched with
  | [] =>
    { success := false, message := some "찾을 수 없습니다", total_matches := none,
      marathon := none, other_matches := none }
  | m0 :: rest =>
    { success := true, message := none, total_matches := some (m0 :: rest).length,
      marathon := some (MStatus.mk m0 (is_accepting_applications m0 today)),
      other_matches :=
        if rest.isEmpty then none else some (rest.map (fun m => (m.name, m.date))) }

/-- Model of the `get_marathon_by_name` tool. -/
def get_marathon_by_name (name : String) (useC : Bool) (c : Cache) (now today : Nat)
    (crawl : List Marathon) : NameDoc × Cache :=
  match resolveData useC c now crawl with
  | (results, _, c') => (nameQueryDoc name today results, c')

/-! ### `get_upcoming_marathons` -/

/-- One loop iteration of `get_upcoming_marathons`: skip an empty date, skip
a parse failure (`except: continue`), keep a record whose date lies in
`[today, today + days]` (datetime comparison of midnight values, i.e. day
ordinals), annotated with `접수가능여부` and `D-day = (race_date -
today).days`. -/
def upcomingAnnotate (today : Nat) (days : Int) (m : Marathon) : Option UpView :=
  if m.date = "" then none
  else
    match parseDate m.date with
    | none => none
    | some r =>
      if (today : Int) ≤ (r : Int) ∧ (r : Int) ≤ (today : Int) + days then
        some (UpView.mk m (is_accepting_applications m today) ((r : Int) - (today : Int)))
      else none

/-- The filter/annotate/sort body of `get_upcoming_marathons`. -/
def upcomingQuery (days : Int) (today : Nat) (results : List Marathon) : List UpView :=
  List.insertionSort rDday (results.filterMap (upcomingAnnotate today days))

/-- The JSON document `get_upcoming_marathons` returns. -/
structure UpDoc where
  success : Bool
  total : Nat
  period_days : Int
  marathons : List UpView
deriving DecidableEq, Repr

/-- Model of the `get_upcoming_marathons` tool. -/
def get_upcoming_marathons (days : Int) (useC : Bool) (c : Cache) (now today : Nat)
    (crawl : List Marathon) : UpDoc × Cache :=
  match resolveData useC c now crawl with
  | (results, _, c') =>
    let up := upcomingQuery days today results
    ({ success := decide (0 < up.length), total := up.length, period_days := days,
       marathons := up }, c')

/-! ### `get_marathons_by_track` -/

/-- The JSON document `get_marathons_by_track` returns. -/
structure TrackDoc where
  success : Bool
  total : Nat
  track_filter : String
  marathons : List MStatus
deriving DecidableEq, Repr

/-- The track-filter body: keep records with `track.lower()` a substring of
any element of `트랙` (annotating during the loop), then sort by date. -/
def trackQuery (track : String) (today : Nat) (results : List Marathon) : List MStatus :=
  let matched :=
    (results.filter (fun m => m.tracks.any (fun t => pyIn (lowerStr track) (lowerStr t)))).map
      (fun m => MStatus.mk m (is_accepting_applications m today))
  List.insertionSort rDateS matched

/-- Model of the `get_marathons_by_track` tool. -/
def get_marathons_by_track (track : String) (useC : Bool) (c : Cache) (now today : Nat)
    (crawl : List Marathon) : TrackDoc × Cache :=
  match resolveData useC c now crawl with
  | (results, _, c') =>
    let sorted := trackQuery track today results
    ({ success := decide (0 < sorted.length), total := sorted.length, track_filter := track,
       marathons := sorted }, c')

/-! ### The crawl orchestrator (`crawl_marathons_fast`) -/

/-- The candidate test in the href loop: `if href and '/raceDetail/' in
href`. -/
def candHref (h : String) : Bool := !(h == "") && pyIn "/raceDetail/" h

/-- The href-collection loop: `if href and '/raceDetail/' in href and href
not in detail_urls: detail_urls.append(href)`, with `acc` playing
`detail_urls`. -/
def extractGo (acc : List String) : List String → List String
  | [] => acc
  | h :: t => extractGo (if candHref h && !(memB h acc) then acc ++ [h] else acc) t

/-- The de-duplicated candidate URL list extracted from the listing page's
hrefs. -/
def extractDetailUrls (hrefs : List String) : List String := extractGo [] hrefs

/-- The outcome of one detail fetch as seen by `asyncio.gather(...,
return_exceptions=True)`: a record dict, `None` (`fetch_detail` caught an
error or found no payload), or an exception object. -/
inductive FetchOutcome
  | ok (m : Marathon)
  | noRecord
  | exc
deriving DecidableEq, Repr

/-- The record of a successful outcome; failures contribute nothing.  This is
`[r for r in results if r and not isinstance(r, Exception)]`: `None` and
exceptions are dropped, and a returned record dict always has thirteen keys,
hence is truthy. -/
def okOf : FetchOutcome → Option Marathon
  | FetchOutcome.ok m => some m
  | FetchOutcome.noRecord => none
  | FetchOutcome.exc => none

/-- The success-filtering comprehension over gathered results. -/
def crawl_collect (results : List FetchOutcome) : List Marathon :=
  results.filterMap okOf

/-- Model of `crawl_marathons_fast`: `listing = none` is a failed listing
fetch (the whole crawl aborts to `[]`); otherwise the collaborator-supplied
href list is de-duplicated, an empty candidate list yields `[]`, and the
fan-out is the per-URL outcome function `fetch` applied to every candidate
(`asyncio.gather` preserves input order; the semaphore bounds concurrency
without changing the collected outcomes). -/
def crawl_marathons_fast (listing : Option (List String)) (fetch : String → FetchOutcome) :
    List Marathon :=
  match listing with
  | none => []
  | some hrefs =>
    let urls := extractDetailUrls hrefs
    if urls.isEmpty then []
    else crawl_collect (urls.map fetch)

/-! ### Helper lemmas: membership, de-duplication -/

theorem bool_eq_false_of_ne_true (b : Bool) (h : ¬b = true) : b = false := by
  cases b with
  | true => exact absurd rfl h
  | false => rfl

theorem memB_append (x : String) (l : List String) (h : String) :
    memB x (l ++ [h]) = (memB x l || x == h) := by
  induction l with
  | nil => simp [memB]
  | cons y ys ih => simp [memB, ih, Bool.or_assoc]

theorem memB_eq_true_iff_mem (x : String) (l : List String) :
    memB x l = true ↔ x ∈ l := by
  induction l with
  | nil => simp [memB]
  | cons y ys ih =>
    simp only [memB, Bool.or_eq_true, beq_iff_eq, List.mem_cons, ih]

/-- Specification-side first-occurrence de-duplication of the candidate
hrefs: keep each candidate's first occurrence, removing all its later exact
duplicates. -/
def dedupFirst : List String → List String
  | [] => []
  | h :: t =>
    if candHref h then h :: dedupFirst (t.filter (fun x => !(x == h)))
    else dedupFirst t
termination_by l => l.length
decreasing_by
  · simp only [List.length_cons]
    exact Nat.lt_succ_of_le (List.length_filter_le _ _)
  · simp only [List.length_cons]
    exact Nat.lt_succ_self _

/-- The collection loop with an explicit already-seen list. -/
def dedupSeen : List String → List String → List String
  | _, [] => []
  | seen, h :: t =>
    if candHref h && !(memB h seen) then h :: dedupSeen (seen ++ [h]) t
    else dedupSeen seen t

theorem extractGo_eq (l acc : List String) :
    extractGo acc l = acc ++ dedupSeen acc l := by
  induction l generalizing acc with
  | nil => simp [extractGo, dedupSeen]
  | cons h t ih =>
    by_cases hc : (candHref h && !(memB h acc)) = true
    · simp only [extractGo, dedupSeen, hc, if_true, ih, List.append_assoc,
        List.singleton_append]
    · simp [extractGo, dedupSeen, hc, ih]

theorem dedupSeen_eq (l seen : List String) :
    dedupSeen seen l = dedupFirst (l.filter (fun x => !(memB x seen))) := by
  induction l generalizing seen with
  | nil => simp [dedupSeen, dedupFirst]
  | cons h t ih =>
    by_cases hm : memB h seen = true
    · have hfh : (!(memB h seen)) = false := by simp [hm]
      simp [dedupSeen, hm, List.filter_cons, hfh, ih]
    · have hm' : memB h seen = false := by
        cases hmem : memB h seen with
        | true => exact absurd hmem hm
        | false => rfl
      have hfh : (!(memB h seen)) = true := by simp [hm']
      by_cases hcand : candHref h = true
      · have key : (t.filter (fun x => !(memB x (seen ++ [h])))) =
            ((t.filter (fun x => !(memB x seen))).filter (fun x => !(x == h))) := by
          rw [List.filter_filter]
          apply List.filter_congr
          intro a _
          rw [memB_append]
          cases hms : memB a seen <;> cases hah : (a == h) <;> rfl
        simp only [dedupSeen, hcand, hfh, Bool.and_true, if_true, ih,
          List.filter_cons, dedupFirst, key]
      · have hcand' : candHref h = false := by
          cases hcv : candHref h with
          | true => exact absurd hcv hcand
          | false => rfl
        simp [dedupSeen, hcand', ih, List.filter_cons, hfh, dedupFirst]

theorem extractDetailUrls_eq_dedupFirst (hrefs : List String) :
    extractDetailUrls hrefs = dedupFirst hrefs := by
  have hfun : ∀ x : String, (!(memB x ([] : List String))) = true := by
    intro x; rfl
  rw [extractDetailUrls, extractGo_eq, dedupSeen_eq, List.nil_append,
    List.filter_congr (fun a _ => hfun a), List.filter_true]

theorem extractGo_nodup (l acc : List String) (hacc : acc.Nodup) :
    (extractGo acc l).Nodup := by
  induction l generalizing acc with
  | nil => simpa [extractGo] using hacc
  | cons h t ih =>
    by_cases hc : (candHref h && !(memB h acc)) = true
    · have hnotmem : h ∉ acc := by
        intro hmem
        have := (memB_eq_true_iff_mem h acc).mpr hmem
        simp [this] at hc
      simp only [extractGo, hc, if_true]
      exact ih (acc ++ [h]) (by simp [List.nodup_append, hacc, hnotmem])
    · simp only [extractGo, hc, if_false]
      exact ih acc hacc

/-! ### Claim theorems -/

/-- Claim C4: for every record, `isAccepting` (접수가능여부) is true if and
only if `applicationWindow.end` is a non-empty string that parses as
`YYYY-MM-DD` and the parsed end date is on or after the start of today; an
empty end date or a parse failure yields `false`.  The model
`is_accepting_applications` is a total function, so the computation never
raises. -/
theorem C4_is_accepting_characterization (m : Marathon) (today : Nat) :
    is_accepting_applications m today = true ↔
      (m.appEnd ≠ "" ∧ ∃ e, parseDate m.appEnd = some e ∧ today ≤ e) := by
  unfold is_accepting_applications
  by_cases h : m.appEnd = ""
  · simp [h]
  · cases hp : parseDate m.appEnd with
    | none => simp [h, hp]
    | some e => simp [h, hp]

/-! ### Concrete fixtures for evaluations -/

/-- Build a record with the given name, region, date, application end date,
tracks and source URL, all other fields empty (as `fetch_detail` defaults
them). -/
def mkRec (nm rg dt ae : String) (tr : List String) (src : String) : Marathon :=
  { name := nm, tracks := tr, region := rg, place := "", date := dt, gatherTime := "",
    appStart := "", appEnd := ae, email := "", phone := "", host := "", homepage := "",
    intro := "", sourceUrl := src }

/-- A detail payload whose `raceDate` field is missing. -/
def c1detailNoDate : RaceDetail :=
  { raceName := some "무명대회", raceTypeList := none, region := some "서울", place := none,
    raceDate := none, raceStart := none, applicationStartDate := none,
    applicationEndDate := none, email := none, phone := none, host := none,
    homepageUrl := none, intro := none }

/-- The record `fetch_detail` builds from `c1detailNoDate`: its `날짜` key is
present and holds the empty string. -/
def c1recNoDate : Marathon := fetchExtract c1detailNoDate "/raceDetail/100"

/-- A record with the parsable date `2025-11-05`. -/
def c1recDated : Marathon := mkRec "날짜대회" "서울" "2025-11-05" "" [] "/raceDetail/101"

/-- A record in region 서울. -/
def c2recSeoul : Marathon := mkRec "서울마라톤" "서울" "2025-11-20" "" [] "/raceDetail/1"

/-- A record for the crawl scenarios. -/
def c7recB : Marathon := mkRec "성공대회" "부산" "2025-12-01" "" [] "/raceDetail/b"

/-- A per-URL fetch where the first URL's fetch fails (HTTP 500 is caught
inside `fetch_detail`, which returns `None`) and the second succeeds. -/
def c7fetchOneFails : String → FetchOutcome :=
  fun u => if u == "/raceDetail/a" then FetchOutcome.noRecord else FetchOutcome.ok c7recB

/-- Records for the duplicate-href scenario. -/
def c9recA : Marathon := mkRec "대회A" "서울" "2025-10-01" "" [] "/raceDetail/a"

/-- Second record for the duplicate-href scenario. -/
def c9recB : Marathon := mkRec "대회B" "부산" "2025-10-02" "" [] "/raceDetail/b"

/-- A per-URL fetch where both unique URLs succeed. -/
def c9fetchBoth : String → FetchOutcome :=
  fun u => if u == "/raceDetail/a" then FetchOutcome.ok c9recA else FetchOutcome.ok c9recB

/-- Claim C1 (code evaluated at the failing input): the claim says every
record whose `eventDate` is empty is placed after all records with parsable
dates.  The code violates this: `fetch_detail` always stores the `날짜` key
(empty string when `raceDate` is missing), so the sort key
`x.get('날짜', '9999-99-99')` is the stored string itself and the
`'9999-99-99'` sentinel is never consulted; the empty string is the smallest
sort key, so the empty-date record comes first.  Here `search_marathons`
with no filters over a fresh crawl of `[dated, dateless]` returns the
dateless record before the dated one. -/
theorem C1_empty_date_sorts_first :
    c1recNoDate = fetchExtract c1detailNoDate "/raceDetail/100" ∧
    c1recNoDate.date = "" ∧
    parseDate c1recDated.date = some (toOrdinal 2025 11 5) ∧
    ((search_marathons "" "" false false initCache 0 0
        [c1recDated, c1recNoDate]).1.marathons.map (fun s => s.record.date)) =
      ["", "2025-11-05"] := by
  decide

/-- Claim C2 counterexample: data is obtained from a successful crawl, zero
records match the region filter, and the returned document has
`success = false` — not `success = true` as the claim states (its `total` is
0 and it carries no error field, so it is not the error document either). -/
theorem C2_zero_match_success_false :
    (search_marathons "부산" "" false false initCache 0 0 [c2recSeoul]).1.success = false ∧
    (search_marathons "부산" "" false false initCache 0 0 [c2recSeoul]).1.total = 0 ∧
    (search_marathons "부산" "" false false initCache 0 0 [c2recSeoul]).1.error = none := by
  decide

/-- The normal (non-error) `search_marathons` document always carries no
error field and a success flag equal to `result count > 0`. -/
theorem searchBody_doc_fields (region date : String) (onlyA : Bool) (today : Nat)
    (results : List Marathon) (c : Cache) :
    (searchBody region date onlyA today results c).1.error = none ∧
    ((searchBody region date onlyA today results c).1.success = true ↔
      0 < (searchBody region date onlyA today results c).1.total) := by
  constructor
  · simp [searchBody]
  · simp [searchBody]

/-- Claim C2 (amended): for every query in which data was obtained — from a
valid cache hit or from a successful (non-empty) crawl, hypothesis `hobt` —
the returned document is a normal filter-result document — for
`search_marathons` it carries no error field — whose success flag equals
`result count > 0`; in particular zero matches give `success = false` and
`total = 0`, not an error document.  This covers `search_marathons`,
`get_upcoming_marathons` and `get_marathons_by_track`. -/
theorem C2_amended_zero_match_documents (region date track : String) (onlyA useC : Bool)
    (c : Cache) (now today : Nat) (days : Int) (crawl : List Marathon)
    (hobt : (useC && is_cache_valid c now) = true ∨ crawl ≠ []) :
    ((search_marathons region date onlyA useC c now today crawl).1.error = none ∧
     ((search_marathons region date onlyA useC c now today crawl).1.success = true ↔
        0 < (search_marathons region date onlyA useC c now today crawl).1.total)) ∧
    ((get_upcoming_marathons days useC c now today crawl).1.success = true ↔
        0 < (get_upcoming_marathons days useC c now today crawl).1.total) ∧
    ((get_marathons_by_track track useC c now today crawl).1.success = true ↔
        0 < (get_marathons_by_track track useC c now today crawl).1.total) := by
  refine ⟨?_, ?_, ?_⟩
  · by_cases hb : (useC && is_cache_valid c now) = true
    · have hres : resolveData useC c now crawl = (c.data.getD [], DataSrc.fromCache, c) := by
        simp [resolveData, hb]
      unfold search_marathons
      rw [hres]
      exact searchBody_doc_fields region date onlyA today (c.data.getD []) c
    · have hb' := bool_eq_false_of_ne_true _ hb
      have hne : crawl ≠ [] := by
        rcases hobt with hhit | hne
        · exact absurd hhit hb
        · exact hne
      have hie : crawl.isEmpty = false := by
        cases crawl with
        | nil => exact absurd rfl hne
        | cons a l => rfl
      have hres : resolveData useC c now crawl =
          (crawl, DataSrc.fromCrawl, cachePut c now crawl) := by
        simp [resolveData, hb']
      unfold search_marathons
      rw [hres]
      have hcond : (DataSrc.fromCrawl == DataSrc.fromCrawl && crawl.isEmpty) = false := by
        simp [hie]
      simp only [hcond, Bool.false_eq_true, if_false]
      exact searchBody_doc_fields region date onlyA today crawl (cachePut c now crawl)
  · unfold get_upcoming_marathons
    rcases hres : resolveData useC c now crawl with ⟨results, src, c'⟩
    simp
  · unfold get_marathons_by_track
    rcases hres : resolveData useC c now crawl with ⟨results, src, c'⟩
    simp

/-- Claim C2 witness: the amended statement applied at a concrete cache-hit
input. -/
theorem C2_amended_witness :
    (search_marathons "부산" "" false true (Cache.mk (some [c2recSeoul]) (some 0) 3600)
        0 0 []).1.error = none :=
  (C2_amended_zero_match_documents "부산" "" "" false true
    (Cache.mk (some [c2recSeoul]) (some 0) 3600) 0 0 0 [] (Or.inl (by decide))).1.1

/-- Claim C7: the crawl returns exactly the records of the successful
fetches — `None` results and exception objects are filtered out, and each
URL's contribution depends only on its own outcome (independence), as the
result is a pointwise `filterMap` over the candidate list.  Per-item
failures never raise: the model is a total function, as `fetch_detail`
catches every exception and `asyncio.gather(..., return_exceptions=True)`
converts task exceptions into values.  Concretely, with 2 candidate URLs
where one fetch fails (HTTP 500 → `None`) and one succeeds, the crawl
returns exactly 1 record. -/
theorem C7_failures_dropped :
    (∀ (hrefs : List String) (fetch : String → FetchOutcome),
        crawl_marathons_fast (some hrefs) fetch =
          (extractDetailUrls hrefs).filterMap (fun u => okOf (fetch u))) ∧
    crawl_marathons_fast (some ["/raceDetail/a", "/raceDetail/b"]) c7fetchOneFails =
      [c7recB] ∧
    (crawl_marathons_fast (some ["/raceDetail/a", "/raceDetail/b"]) c7fetchOneFails).length
      = 1 := by
  refine ⟨?_, by decide, by decide⟩
  intro hrefs fetch
  unfold crawl_marathons_fast
  by_cases h : (extractDetailUrls hrefs).isEmpty = true
  · have hnil : extractDetailUrls hrefs = [] := by
      cases hu : extractDetailUrls hrefs with
      | nil => rfl
      | cons a l => rw [hu] at h; exact absurd h (by simp)
    simp [h, hnil]
  · have h' : (extractDetailUrls hrefs).isEmpty = false := by
      cases hv : (extractDetailUrls hrefs).isEmpty with
      | true => exact absurd hv h
      | false => rfl
    simp only [h', Bool.false_eq_true, if_false, crawl_collect, List.filterMap_map]
    rfl

/-- Claim C9: the crawl orchestrator de-duplicates candidate hrefs by exact
string equality while preserving first-occurrence order (the loop equals
keep-the-first-occurrence de-duplication of the candidate hrefs, and its
output has no duplicates), so 3 duplicate-laden hrefs resolving to 2 unique
URLs yield exactly 2 detail fetches and, when both succeed, exactly 2
records. -/
theorem C9_dedup_first_occurrence :
    (∀ hrefs : List String, extractDetailUrls hrefs = dedupFirst hrefs) ∧
    (∀ hrefs : List String, (extractDetailUrls hrefs).Nodup) ∧
    extractDetailUrls ["/raceDetail/a", "/raceDetail/b", "/raceDetail/a"] =
      ["/raceDetail/a", "/raceDetail/b"] ∧
    (extractDetailUrls ["/raceDetail/a", "/raceDetail/b", "/raceDetail/a"]).length = 2 ∧
    crawl_marathons_fast (some ["/raceDetail/a", "/raceDetail/b", "/raceDetail/a"])
        c9fetchBoth = [c9recA, c9recB] ∧
    (crawl_marathons_fast (some ["/raceDetail/a", "/raceDetail/b", "/raceDetail/a"])
        c9fetchBoth).length = 2 := by
  refine ⟨extractDetailUrls_eq_dedupFirst,
    fun hrefs => extractGo_nodup hrefs [] List.nodup_nil, ?_, ?_, ?_, ?_⟩ <;> decide

/-! ### Cache-effect lemmas for `search_marathons` -/

/-- The cache after `searchBody`: unchanged when some filter is active
(`filtered` was rebound to a fresh list, so the in-place sort does not touch
the cached list), and re-sorted in place when no filter is active. -/
theorem searchBody_cache_cases (region date : String) (onlyA : Bool) (today : Nat)
    (results : List Marathon) (c : Cache) :
    (searchBody region date onlyA today results c).2 = c ∨
    ((region = "" ∧ date = "" ∧ onlyA = false) ∧
      (searchBody region date onlyA today results c).2 =
        { c with data := some (sortByDate results) }) := by
  by_cases h : (!(region == "") || !(date == "") || onlyA) = true
  · left
    simp [searchBody, h]
  · have hb : (!(region == "") || !(date == "") || onlyA) = false := by
      cases hv : (!(region == "") || !(date == "") || onlyA) with
      | true => exact absurd hv h
      | false => rfl
    cases hrv : (region == "") with
    | false => rw [hrv] at hb; simp at hb
    | true =>
      cases hdv : (date == "") with
      | false => rw [hrv, hdv] at hb; simp at hb
      | true =>
        cases hov : onlyA with
        | true => rw [hrv, hdv, hov] at hb; simp at hb
        | false =>
          right
          refine ⟨⟨by simpa using hrv, by simpa using hdv, rfl⟩, ?_⟩
          simp [searchBody, hrv, hdv]

/-- Records out of date order for the cache-mutation counterexample. -/
def c3recA : Marathon := mkRec "일월대회" "서울" "2025-01-01" "" [] "/raceDetail/31"

/-- Second record for the cache-mutation counterexample. -/
def c3recB : Marathon := mkRec "십이월대회" "서울" "2025-12-01" "" [] "/raceDetail/32"

/-- A valid cache holding the two records in reverse date order. -/
def c3cache : Cache := { data := some [c3recB, c3recA], timestamp := some 0, ttl := 3600 }

/-- Claim C3 counterexample: a no-filter `search_marathons` over a valid
cache hit re-sorts the cached list in place (`filtered = results` aliases
`_cache['data']` and `filtered.sort(...)` mutates it), so the cached record
sequence changes order — the claim that it is left unchanged is false. -/
theorem C3_cached_list_reordered :
    (search_marathons "" "" false true c3cache 0 0 []).2.data = some [c3recA, c3recB] ∧
    c3cache.data = some [c3recB, c3recA] ∧
    c3recA ≠ c3recB := by
  decide

/-- Claim C3 (amended): on a cache hit, `search_marathons` never changes the
cached records' elements or fields and never touches the timestamp or ttl;
with at least one active filter the cache is completely unchanged, but with
no active filter the cached list is replaced by a permutation of itself (it
is sorted in place by date), so the order of the cached sequence may change. -/
theorem C3_amended_cache_hit_frame (region date : String) (onlyA : Bool) (c : Cache)
    (now today : Nat) (crawl l : List Marathon)
    (hhit : is_cache_valid c now = true) (hdata : c.data = some l) :
    (∃ l', (search_marathons region date onlyA true c now today crawl).2.data = some l' ∧
        List.Perm l' l) ∧
    (search_marathons region date onlyA true c now today crawl).2.timestamp = c.timestamp ∧
    (search_marathons region date onlyA true c now today crawl).2.ttl = c.ttl ∧
    ((region ≠ "" ∨ date ≠ "" ∨ onlyA = true) →
        (search_marathons region date onlyA true c now today crawl).2 = c) := by
  have hres : resolveData true c now crawl = (l, DataSrc.fromCache, c) := by
    simp [resolveData, hhit, hdata]
  have hmain : search_marathons region date onlyA true c now today crawl =
      searchBody region date onlyA today l c := by
    simp [search_marathons, hres]
  rcases searchBody_cache_cases region date onlyA today l c with hc | ⟨⟨hr, hd, ho⟩, hc⟩
  · rw [hmain, hc]
    exact ⟨⟨l, hdata, List.Perm.refl l⟩, rfl, rfl, fun _ => rfl⟩
  · rw [hmain, hc]
    refine ⟨⟨sortByDate l, rfl, List.perm_insertionSort rDate l⟩, rfl, rfl, ?_⟩
    rintro (hact | hact | hact)
    · exact absurd hr hact
    · exact absurd hd hact
    · rw [ho] at hact; exact Bool.noConfusion hact

/-- Claim C3 witness: the amended statement applied at a concrete input with
an active region filter — the cache is completely unchanged. -/
theorem C3_amended_witness :
    (search_marathons "서울" "" false true c3cache 0 0 []).2 = c3cache :=
  (C3_amended_cache_hit_frame "서울" "" false c3cache 0 0 [] [c3recB, c3recA]
    (by decide) (by decide)).2.2.2 (Or.inl (by decide))

/-! ### C5: cache updated only with non-empty crawl results -/

/-- A record for the cache-put witness. -/
def c5rec : Marathon := mkRec "캐시대회" "대구" "2025-09-09" "" [] "/raceDetail/55"

/-- Claim C5: on every query path that crawls (cache miss or cache bypass),
a non-empty crawl result replaces the cache entry with exactly those records
and stamps the timestamp with the current time, while an empty crawl result
leaves the previously cached entry (records and timestamp) unchanged.
`resolveData` is the cache prologue shared by all four query tools;
`get_marathon_by_name` hands its cache through unchanged, and
`search_marathons`'s early error return on an empty crawl also leaves the
cache untouched. -/
theorem C5_cache_put_semantics (useC : Bool) (c : Cache) (now today : Nat)
    (crawl : List Marathon)
    (hmiss : (useC && is_cache_valid c now) = false) :
    (crawl ≠ [] → (resolveData useC c now crawl).2.2 =
        { data := some crawl, timestamp := some now, ttl := c.ttl }) ∧
    (crawl = [] → (resolveData useC c now crawl).2.2 = c) ∧
    (∀ name, (get_marathon_by_name name useC c now today crawl).2 =
        (resolveData useC c now crawl).2.2) ∧
    (crawl = [] → ∀ region date onlyA,
        (search_marathons region date onlyA useC c now today crawl).2 = c) := by
  have hres : resolveData useC c now crawl =
      (crawl, DataSrc.fromCrawl, cachePut c now crawl) := by
    simp [resolveData, hmiss]
  refine ⟨?_, ?_, ?_, ?_⟩
  · intro hne
    have hie : crawl.isEmpty = false := by
      cases crawl with
      | nil => exact absurd rfl hne
      | cons a t => rfl
    rw [hres]
    simp [cachePut, hie]
  · intro h0
    rw [hres, h0]
    simp [cachePut]
  · intro name
    unfold get_marathon_by_name
    rw [hres]
  · intro h0 region date onlyA
    subst h0
    unfold search_marathons
    rw [hres]
    simp [cachePut, searchErrorDoc]

/-- Claim C5 witness: an empty crawl on a cache-miss path leaves a
previously populated cache untouched. -/
theorem C5_cache_put_witness :
    (resolveData false (Cache.mk (some [c5rec]) (some 0) 3600) 5 []).2.2 =
      Cache.mk (some [c5rec]) (some 0) 3600 :=
  (C5_cache_put_semantics false (Cache.mk (some [c5rec]) (some 0) 3600) 5 0 []
    (by decide)).2.1 rfl

/-! ### C6: the records/timestamp pair invariant -/

/-- The cache pair invariant: `data` and `timestamp` are both present or
both absent. -/
def pairedCache (c : Cache) : Prop := c.data.isSome = c.timestamp.isSome

theorem is_cache_valid_both_some (c : Cache) (now : Nat)
    (h : is_cache_valid c now = true) :
    c.data.isSome = true ∧ c.timestamp.isSome = true := by
  cases hd : c.data <;> cases ht : c.timestamp <;>
    simp [is_cache_valid, hd, ht] at h ⊢

theorem pairedCache_cachePut (c : Cache) (now : Nat) (records : List Marathon)
    (h : pairedCache c) : pairedCache (cachePut c now records) := by
  unfold cachePut
  by_cases he : records.isEmpty = true
  · simpa [he] using h
  · have he' := bool_eq_false_of_ne_true _ he
    simp [he', pairedCache]

theorem pairedCache_resolveData (useC : Bool) (c : Cache) (now : Nat)
    (crawl : List Marathon) (h : pairedCache c) :
    pairedCache (resolveData useC c now crawl).2.2 := by
  unfold resolveData
  by_cases hb : (useC && is_cache_valid c now) = true
  · simpa [hb] using h
  · have hb' := bool_eq_false_of_ne_true _ hb
    simpa [hb'] using pairedCache_cachePut c now crawl h

theorem pairedCache_search (region date : String) (onlyA useC : Bool) (c : Cache)
    (now today : Nat) (crawl : List Marathon) (h : pairedCache c) :
    pairedCache (search_marathons region date onlyA useC c now today crawl).2 := by
  unfold search_marathons
  by_cases hb : (useC && is_cache_valid c now) = true
  · have hv : is_cache_valid c now = true := by
      cases useC with
      | false => rw [Bool.false_and] at hb; exact Bool.noConfusion hb
      | true => rw [Bool.true_and] at hb; exact hb
    have hts : c.timestamp.isSome = true := (is_cache_valid_both_some c now hv).2
    have hres : resolveData useC c now crawl = (c.data.getD [], DataSrc.fromCache, c) := by
      simp [resolveData, hb]
    rw [hres]
    rcases searchBody_cache_cases region date onlyA today (c.data.getD []) c with hc | ⟨_, hc⟩
    · show pairedCache (searchBody region date onlyA today (c.data.getD []) c).2
      rw [hc]; exact h
    · show pairedCache (searchBody region date onlyA today (c.data.getD []) c).2
      rw [hc]; simp [pairedCache, hts]
  · have hb' := bool_eq_false_of_ne_true _ hb
    have hres : resolveData useC c now crawl =
        (crawl, DataSrc.fromCrawl, cachePut c now crawl) := by
      simp [resolveData, hb']
    rw [hres]
    by_cases he : crawl.isEmpty = true
    · simpa [he, cachePut] using h
    · have he' := bool_eq_false_of_ne_true _ he
      have hcond : (DataSrc.fromCrawl == DataSrc.fromCrawl && crawl.isEmpty) = false := by
        simp [he']
      simp only [hcond, Bool.false_eq_true, if_false]
      have hts : (cachePut c now crawl).timestamp.isSome = true := by
        simp [cachePut, he']
      rcases searchBody_cache_cases region date onlyA today crawl (cachePut c now crawl)
        with hc | ⟨_, hc⟩
      · rw [hc]; exact pairedCache_cachePut c now crawl h
      · rw [hc]; simp [pairedCache, hts]

theorem pairedCache_by_name (name : String) (useC : Bool) (c : Cache)
    (now today : Nat) (crawl : List Marathon) (h : pairedCache c) :
    pairedCache (get_marathon_by_name name useC c now today crawl).2 := by
  unfold get_marathon_by_name
  rcases hres : resolveData useC c now crawl with ⟨results, src, c'⟩
  have hp := pairedCache_resolveData useC c now crawl h
  rw [hres] at hp
  exact hp

theorem pairedCache_upcoming (days : Int) (useC : Bool) (c : Cache)
    (now today : Nat) (crawl : List Marathon) (h : pairedCache c) :
    pairedCache (get_upcoming_marathons days useC c now today crawl).2 := by
  unfold get_upcoming_marathons
  rcases hres : resolveData useC c now crawl with ⟨results, src, c'⟩
  have hp := pairedCache_resolveData useC c now crawl h
  rw [hres] at hp
  exact hp

theorem pairedCache_by_track (track : String) (useC : Bool) (c : Cache)
    (now today : Nat) (crawl : List Marathon) (h : pairedCache c) :
    pairedCache (get_marathons_by_track track useC c now today crawl).2 := by
  unfold get_marathons_by_track
  rcases hres : resolveData useC c now crawl with ⟨results, src, c'⟩
  have hp := pairedCache_resolveData useC c now crawl h
  rw [hres] at hp
  exact hp

/-- Claim C6: after every operation — the initial state, `clear_cache`, and
each of the four query tools' cache handling (including the in-place
re-sort by a no-filter `search_marathons`) — the cache's `data` and
`timestamp` fields are both present or both absent, never one without the
other. -/
theorem C6_cache_pair_invariant :
    pairedCache initCache ∧
    (∀ c, pairedCache c → pairedCache (clear_cache c)) ∧
    (∀ region date onlyA useC c now today crawl, pairedCache c →
        pairedCache (search_marathons region date onlyA useC c now today crawl).2) ∧
    (∀ name useC c now today crawl, pairedCache c →
        pairedCache (get_marathon_by_name name useC c now today crawl).2) ∧
    (∀ (days : Int) useC c now today crawl, pairedCache c →
        pairedCache (get_upcoming_marathons days useC c now today crawl).2) ∧
    (∀ track useC c now today crawl, pairedCache c →
        pairedCache (get_marathons_by_track track useC c now today crawl).2) := by
  refine ⟨rfl, fun c _ => rfl, ?_, ?_, ?_, ?_⟩
  · intro region date onlyA useC c now today crawl h
    exact pairedCache_search region date onlyA useC c now today crawl h
  · intro name useC c now today crawl h
    exact pairedCache_by_name name useC c now today crawl h
  · intro days useC c now today crawl h
    exact pairedCache_upcoming days useC c now today crawl h
  · intro track useC c now today crawl h
    exact pairedCache_by_track track useC c now today crawl h

/-- Claim C6 witness: the invariant conjunct for `search_marathons` applied
at a concrete input. -/
theorem C6_cache_pair_witness :
    pairedCache (search_marathons "" "" false true initCache 0 0 []).2 :=
  C6_cache_pair_invariant.2.2.1 "" "" false true initCache 0 0 [] rfl

/-! ### C8: upcoming-marathons characterization -/

/-- A record dated 2025-11-05 for scenario E. -/
def c8recNov05 : Marathon := mkRec "동작구마라톤" "서울" "2025-11-05" "" [] "/raceDetail/85"

/-- A record dated 2025-11-10 for scenario E. -/
def c8recNov10 : Marathon := mkRec "강남구마라톤" "서울" "2025-11-10" "" [] "/raceDetail/86"

/-- Claim C8: `get_upcoming_marathons` returns exactly the records whose
`eventDate` parses as `YYYY-MM-DD` and falls within `[today, today + days]`
inclusive (day ordinals of midnight-truncated datetimes), each annotated
with `daysUntil = parsed(eventDate) - today` in whole days, sorted
ascending by `daysUntil`; records with empty or unparsable dates are
excluded (`parseDate "" = none`).  With `today = 2025-11-01` and
`days = 7`, a record dated 2025-11-10 is excluded and one dated 2025-11-05
is included with `daysUntil = 4`. -/
theorem C8_upcoming_characterization (records : List Marathon) (today : Nat) (days : Int) :
    (∀ v : UpView, v ∈ upcomingQuery days today records ↔
        v ∈ records.filterMap (upcomingAnnotate today days)) ∧
    (∀ v : UpView, v ∈ upcomingQuery days today records →
        v.record ∈ records ∧ ∃ r : Nat, parseDate v.record.date = some r ∧
          (today : Int) ≤ (r : Int) ∧ (r : Int) ≤ (today : Int) + days ∧
          v.dday = (r : Int) - (today : Int)) ∧
    (∀ m ∈ records, ∀ r : Nat, parseDate m.date = some r →
        (today : Int) ≤ (r : Int) → (r : Int) ≤ (today : Int) + days →
        UpView.mk m (is_accepting_applications m today) ((r : Int) - (today : Int)) ∈
          upcomingQuery days today records) ∧
    (∀ m ∈ records, parseDate m.date = none →
        ∀ v ∈ upcomingQuery days today records, v.record ≠ m) ∧
    List.Sorted rDday (upcomingQuery days today records) ∧
    upcomingQuery 7 (toOrdinal 2025 11 1) [c8recNov10, c8recNov05] =
      [UpView.mk c8recNov05 false 4] := by
  have hperm : List.Perm (upcomingQuery days today records)
      (records.filterMap (upcomingAnnotate today days)) :=
    List.perm_insertionSort rDday _
  have hmem : ∀ v : UpView, v ∈ upcomingQuery days today records ↔
      v ∈ records.filterMap (upcomingAnnotate today days) :=
    fun v => hperm.mem_iff
  have hinv : ∀ (m : Marathon) (v : UpView), upcomingAnnotate today days m = some v →
      v.record = m ∧ ∃ r : Nat, parseDate m.date = some r ∧
        (today : Int) ≤ (r : Int) ∧ (r : Int) ≤ (today : Int) + days ∧
        v.dday = (r : Int) - (today : Int) := by
    intro m v ha
    unfold upcomingAnnotate at ha
    split at ha
    · exact Option.noConfusion ha
    · split at ha
      · exact Option.noConfusion ha
      · rename_i r hp
        split at ha
        · rename_i hc
          cases ha
          exact ⟨rfl, r, hp, hc.1, hc.2, rfl⟩
        · exact Option.noConfusion ha
  refine ⟨hmem, ?_, ?_, ?_, List.sorted_insertionSort rDday _, by decide⟩
  · intro v hv
    obtain ⟨m, hm, ha⟩ := List.mem_filterMap.mp ((hmem v).mp hv)
    obtain ⟨hrec, r, hp, h1, h2, h3⟩ := hinv m v ha
    exact ⟨by rw [hrec]; exact hm, r, by rw [hrec]; exact hp, h1, h2, h3⟩
  · intro m hm r hp h1 h2
    have hnone : parseDate "" = none := rfl
    have hd : m.date ≠ "" := by
      intro h0
      rw [h0, hnone] at hp
      exact Option.noConfusion hp
    have ha : upcomingAnnotate today days m =
        some (UpView.mk m (is_accepting_applications m today)
          ((r : Int) - (today : Int))) := by
      simp only [upcomingAnnotate, if_neg hd, hp]
      rw [if_pos ⟨h1, h2⟩]
    exact (hmem _).mpr (List.mem_filterMap.mpr ⟨m, hm, ha⟩)
  · intro m hm hpnone v hv hrecm
    obtain ⟨m', hm', ha⟩ := List.mem_filterMap.mp ((hmem v).mp hv)
    obtain ⟨hrec, r, hp, _, _, _⟩ := hinv m' v ha
    rw [← hrec, hrecm, hpnone] at hp
    exact Option.noConfusion hp

/-- Claim C8 witness: the completeness conjunct applied at scenario E's
record set — 2025-11-05 is within 7 days of 2025-11-01 and appears with
`daysUntil` equal to the ordinal difference 4. -/
theorem C8_upcoming_witness :
    UpView.mk c8recNov05 (is_accepting_applications c8recNov05 (toOrdinal 2025 11 1))
        ((toOrdinal 2025 11 5 : Int) - (toOrdinal 2025 11 1 : Int)) ∈
      upcomingQuery 7 (toOrdinal 2025 11 1) [c8recNov10, c8recNov05] :=
  (C8_upcoming_characterization [c8recNov10, c8recNov05] (toOrdinal 2025 11 1) 7).2.2.1
    c8recNov05 (by decide) (toOrdinal 2025 11 5) (by decide) (by decide) (by decide)

/-! ### C10: `use_cache = False` bypasses reads but still writes -/

/-- A record cached before the bypass call. -/
def c10recOld : Marathon := mkRec "옛대회" "인천" "2025-08-01" "" [] "/raceDetail/90"

/-- A freshly crawled record. -/
def c10recNew : Marathon := mkRec "새대회" "인천" "2025-08-15" "" [] "/raceDetail/91"

/-- A cache that is valid at time 100. -/
def c10cache : Cache := { data := some [c10recOld], timestamp := some 100, ttl := 3600 }

/-- Claim C10: when a query tool is called with `use_cache = False` — even
while a valid cache entry exists (hypothesis `hvalid`) — the cache is
bypassed for reading (the working list is the crawl result) but still
written: a non-empty crawl result overwrites the cache with exactly those
records and a fresh timestamp.  For `search_marathons` the timestamp is
fresh and the stored list is the crawl result up to the in-place no-filter
re-sort (a permutation). -/
theorem C10_cache_bypass_still_writes (c : Cache) (now today : Nat)
    (crawl : List Marathon)
    (_hvalid : is_cache_valid c now = true) (hne : crawl ≠ []) :
    resolveData false c now crawl =
      (crawl, DataSrc.fromCrawl,
        { data := some crawl, timestamp := some now, ttl := c.ttl }) ∧
    (∀ name, (get_marathon_by_name name false c now today crawl).2 =
        { data := some crawl, timestamp := some now, ttl := c.ttl }) ∧
    (∀ days : Int, (get_upcoming_marathons days false c now today crawl).2 =
        { data := some crawl, timestamp := some now, ttl := c.ttl }) ∧
    (∀ track, (get_marathons_by_track track false c now today crawl).2 =
        { data := some crawl, timestamp := some now, ttl := c.ttl }) ∧
    (∀ region date onlyA,
        (search_marathons region date onlyA false c now today crawl).2.timestamp =
          some now ∧
        ∃ l, (search_marathons region date onlyA false c now today crawl).2.data =
            some l ∧ List.Perm l crawl) := by
  have hie : crawl.isEmpty = false := by
    cases crawl with
    | nil => exact absurd rfl hne
    | cons a t => rfl
  have hres : resolveData false c now crawl =
      (crawl, DataSrc.fromCrawl,
        { data := some crawl, timestamp := some now, ttl := c.ttl }) := by
    simp [resolveData, cachePut, hie]
  refine ⟨hres, ?_, ?_, ?_, ?_⟩
  · intro name; unfold get_marathon_by_name; rw [hres]
  · intro days; unfold get_upcoming_marathons; rw [hres]
  · intro track; unfold get_marathons_by_track; rw [hres]
  · intro region date onlyA
    unfold search_marathons
    rw [hres]
    have hcond : (DataSrc.fromCrawl == DataSrc.fromCrawl && crawl.isEmpty) = false := by
      simp [hie]
    simp only [hcond, Bool.false_eq_true, if_false]
    rcases searchBody_cache_cases region date onlyA today crawl
        { data := some crawl, timestamp := some now, ttl := c.ttl } with hc | ⟨_, hc⟩
    · rw [hc]
      exact ⟨rfl, crawl, rfl, List.Perm.refl crawl⟩
    · rw [hc]
      exact ⟨rfl, sortByDate crawl, rfl, List.perm_insertionSort rDate crawl⟩

/-- Claim C10 witness: with a valid cache entry present at `now = 100` and
`use_cache = False`, a non-empty crawl overwrites the cache. -/
theorem C10_cache_bypass_witness :
    (get_upcoming_marathons 30 false c10cache 100 0 [c10recNew]).2 =
      { data := some [c10recNew], timestamp := some 100, ttl := c10cache.ttl } :=
  (C10_cache_bypass_still_writes c10cache 100 0 [c10recNew] (by decide)
    (by decide)).2.2.1 30

end MarathonServer
